import Mathlib

/-!
# AquaTimer — verification of the schedule/fade core

Shallow embedding of `src/main.cpp` (ESP32 aquarium-light scheduler).
The interpolation engine and the handler state machine are modelled over
exact rationals (ℚ): the claims about them involve only values that are
float-exact (interpolation ratios 0, 1/2, 1) or insensitive to rounding
(range bounds, emptiness, tie-breaks).  The fade-convergence claim is NOT
rounding-insensitive — `0.2` is not representable in binary32 and the drift
accumulated over a 500-addition run is observable — so that analysis uses an
exact model of the program's IEEE binary32 arithmetic (`fadeStepF`, `rne`,
`fadeTickF` below): values are scaled integers `k/2^26` and every add and
subtract is rounded to 24 significant bits, round-to-nearest ties-to-even.
Machine `unsigned long` (uint32) arithmetic in the NTP-sync timer is
modelled on ℕ with explicit `% 2^32`.

External collaborators are modelled as parameters:
* the wall clock (`getCurrentTimeInHours`) becomes an explicit `currentTime : ℚ`
  argument;
* the ArduinoJson deserializer becomes an abstract
  `parse : String → Option (List JsonEntry)` parameter, `none` standing for a
  `DeserializationError` (total parse failure) and `some entries` for a
  successfully parsed array of objects, each carrying its `"time"` string and
  its `"duty"` integer;
* the Preferences key-value store's `schedule/points` slot is a `String` field
  of the device state (reads return exactly what was last written, as the
  store guarantees).
-/

namespace AquaTimer

/-- `struct SchedulePoint { float time; int duty; }` (main.cpp:27-31). -/
structure SchedulePoint where
  time : ℚ
  duty : ℤ
deriving DecidableEq, Repr

/-- Arduino's `constrain(amt, low, high)` macro:
`(amt)<(low)?(low):((amt)>(high)?(high):(amt))`. -/
def constrain (x lo hi : ℚ) : ℚ :=
  if x < lo then lo else if hi < x then hi else x

/-- Insert a point into a list sorted ascending by `time`, after every
element with strictly smaller time and before the first element with
greater-or-equal time.  Equal-time elements already present stay in front,
so the sort built from this insertion is stable. -/
def insertSorted (p : SchedulePoint) : List SchedulePoint → List SchedulePoint
  | [] => [p]
  | q :: qs => if q.time < p.time then q :: insertSorted p qs else p :: q :: qs

/-- An executable model of the
`std::sort(schedulePoints.begin(), schedulePoints.end(), …)` call at
main.cpp:82-84 (comparator `a.time < b.time`): a stable insertion sort.
Caveat: `std::sort` guarantees only a time-sorted permutation; the order of
equal-time points is implementation-defined.  libstdc++ runs a plain
(stable) insertion sort on ranges up to its 16-element introsort threshold —
which covers the two-point tie-break theorem below — but is unstable and not
deterministic across calls above it.  Theorems that depend on the sort only
through the guaranteed contract are therefore stated against an arbitrary
conforming implementation (`sortSpec`); only the two-element tie-break uses
this concrete model's tie order. -/
def sortPoints : List SchedulePoint → List SchedulePoint
  | [] => []
  | p :: ps => insertSorted p (sortPoints ps)

/-- What the C++ standard guarantees of `std::sort` with the strict weak
order `a.time < b.time`: the output is a permutation of the input, sorted
ascending by time.  Nothing more — in particular no stability. -/
def sortSpec (f : List SchedulePoint → List SchedulePoint) : Prop :=
  (∀ l, List.Perm (f l) l) ∧
  (∀ l, (f l).Pairwise (fun a b => a.time ≤ b.time))

/-- The scan state of the interpolation search (main.cpp:87-90):
`before`/`after` start at the virtual boundary points `(0,0)` and `(24,0)`,
with both "found" flags false. -/
structure ScanState where
  before : SchedulePoint
  after : SchedulePoint
  foundBefore : Bool
  foundAfter : Bool
deriving DecidableEq, Repr

/-- First half of a scan iteration (main.cpp:94-98): any point with
`time <= currentTime` overwrites `before` (last match wins). -/
def scanStepBefore (currentTime : ℚ) (s : ScanState) (p : SchedulePoint) : ScanState :=
  if p.time ≤ currentTime then { s with before := p, foundBefore := true } else s

/-- Second half of a scan iteration (main.cpp:99-103): the first point with
`time >= currentTime` locks `after`. -/
def scanStepAfter (currentTime : ℚ) (s : ScanState) (p : SchedulePoint) : ScanState :=
  if currentTime ≤ p.time ∧ s.foundAfter = false then
    { s with after := p, foundAfter := true } else s

/-- One iteration of the scan loop (main.cpp:92-104): the two `if`s run in
sequence on the same point. -/
def scanStep (currentTime : ℚ) (s : ScanState) (p : SchedulePoint) : ScanState :=
  scanStepAfter currentTime (scanStepBefore currentTime s p) p

/-- The whole scan loop over the (sorted) point list. -/
def scanPoints (currentTime : ℚ) (ps : List SchedulePoint) : ScanState :=
  ps.foldl (scanStep currentTime)
    { before := ⟨0, 0⟩, after := ⟨24, 0⟩, foundBefore := false, foundAfter := false }

/-- The two edge-case rewrites of main.cpp:112-124, run in sequence:
`if (!foundBefore) { before = {0,0}; after = schedulePoints[0]; }` then
`if (!foundAfter) { before = schedulePoints.back(); after = {24,0}; }`
(the vector accesses index the sorted vector). -/
def selectBounds (sorted : List SchedulePoint) (s : ScanState) :
    SchedulePoint × SchedulePoint :=
  let ba : SchedulePoint × SchedulePoint :=
    if s.foundBefore = false then (⟨0, 0⟩, sorted.headD ⟨0, 0⟩)
    else (s.before, s.after)
  if s.foundAfter = false then (sorted.getLastD ⟨0, 0⟩, ⟨24, 0⟩)
  else ba

/-- The interpolation tail of `calculateCurrentDuty` (main.cpp:126-139):
return `before.duty` exactly on equal times, otherwise the clamped linear
interpolation. -/
def interpolate (currentTime : ℚ) (ba : SchedulePoint × SchedulePoint) : ℚ :=
  if ba.1.time = ba.2.time then (ba.1.duty : ℚ)
  else
    constrain
      ((ba.1.duty : ℚ) +
        ((ba.2.duty : ℚ) - (ba.1.duty : ℚ)) *
          ((currentTime - ba.1.time) / (ba.2.time - ba.1.time)))
      0 100

/-- `calculateCurrentDuty` (main.cpp:72-140) with the clock reading passed
in as `currentTime` and the `std::sort` implementation as a parameter (see
`sortSpec`).  Returns the computed duty only; the in-place sorting side
effect on the stored vector is captured by `calculateCurrentDutyMWith`
below. -/
def calculateCurrentDutyWith (sortImpl : List SchedulePoint → List SchedulePoint)
    (points : List SchedulePoint) (currentTime : ℚ) : ℚ :=
  if points = [] then 0
  else
    let sorted := sortImpl points
    let s := scanPoints currentTime sorted
    if s.foundBefore = false ∧ s.foundAfter = false then 0
    else interpolate currentTime (selectBounds sorted s)

/-- `calculateCurrentDuty` with the executable stable sort model plugged
in. -/
def calculateCurrentDuty (points : List SchedulePoint) (currentTime : ℚ) : ℚ :=
  calculateCurrentDutyWith sortPoints points currentTime

/-- `fadeStep = 0.2` (main.cpp:17), idealised as the exact rational 1/5 for
the handler state machine, whose claims do not depend on its low-order bits.
The binary32 value the program actually stores is `fadeStepF/2^26` below;
the fade-convergence analysis, which IS sensitive to the difference, uses
that exact model. -/
def fadeStep : ℚ := 1 / 5

/-- The fade limiter inside `updatePWMFromSchedule` (main.cpp:147-158):
snap when within `step` of the target, otherwise move by exactly `step`
toward it (rational idealisation, used for the handler state machine). -/
def fadeTick (current target step : ℚ) : ℚ :=
  if |target - current| ≤ step then target
  else if current < target then current + step
  else current - step

/-! ### Exact binary32 model of the fade loop

Every `float` arising in `updatePWMFromSchedule`'s fade run from 0 toward
100 lies in `[0, 100]` with at most 24 significant bits and unit in the last
place at least `2^-26`, so it is an integer multiple of `2^-26`; values are
represented as that integer (`k` stands for `k/2^26`).  An IEEE binary32
add/subtract is the exact integer add/subtract followed by `rne`, rounding
to 24 significant bits, nearest, ties to even. -/

/-- `fadeStep = 0.2` as the program's binary32 value: `0.2f` is
`13421773/2^26 = 0.20000000298…` (`0.2` itself is not representable). -/
def fadeStepF : ℕ := 13421773

/-- The constant target duty 100 of the convergence claim, scaled by
`2^26`. -/
def targetF : ℕ := 100 * 2 ^ 26

/-- Number of bits of `k` beyond 24 significant bits: the least `r` with
`k < 2^(24+r)` (fuel-bounded search; every value in range has at most 33
bits, so fuel 16 suffices). -/
def excess24 : ℕ → ℕ → ℕ → ℕ
  | 0, _, r => r
  | fuel + 1, k, r => if k < 2 ^ (24 + r) then r else excess24 fuel k (r + 1)

/-- Round `k` (a value scaled by `2^26`) to 24 significant bits, nearest,
ties to even: exactly IEEE binary32 rounding for the range `[2^-2, 2^7)`
covered by this run — values with fewer than 25 significant bits are
representable and kept exact. -/
def rne (k : ℕ) : ℕ :=
  let r := excess24 16 k 0
  if r = 0 then k
  else
    let q := k / 2 ^ r
    let rem := k % 2 ^ r
    let half := 2 ^ (r - 1)
    let q2 := if half < rem then q + 1
      else if rem < half then q
      else if q % 2 = 0 then q else q + 1
    q2 * 2 ^ r

/-- One fade tick (main.cpp:147-158) in exact binary32 arithmetic against
the constant target 100: `abs(targetDuty - currentDutyPWM)` is a rounded
float subtraction, the comparison with `fadeStep` is exact on the
represented values, and `currentDutyPWM ± fadeStep` is a rounded float
add/subtract. -/
def fadeTickF (c : ℕ) : ℕ :=
  let diff := rne (if c ≤ targetF then targetF - c else c - targetF)
  if diff ≤ fadeStepF then targetF
  else if c < targetF then rne (c + fadeStepF)
  else rne (c - fadeStepF)

/-- The binary32 fade trajectory from 0 under the constant target 100, one
entry per control tick. -/
def fadeSeqF : ℕ → ℕ
  | 0 => 0
  | n + 1 => fadeTickF (fadeSeqF n)

/-- `fadeIter fuel c` is the binary32 fade state after `fuel` ticks from
`c` (accumulator form of `fadeSeqF`, evaluated in bounded chunks). -/
def fadeIter : ℕ → ℕ → ℕ
  | 0, c => c
  | fuel + 1, c => fadeIter fuel (fadeTickF c)

/-- Checks, over `fuel` ticks from `c`, that no tick starts from the target
(so the target is not reached strictly before the end of the run) and that
no tick increases the value by more than `bound`. -/
def chunkOk (bound : ℕ) : ℕ → ℕ → Bool
  | 0, _ => true
  | fuel + 1, c =>
    let c2 := fadeTickF c
    ((c != targetF) && Nat.ble (c2 - c) bound) && chunkOk bound fuel c2

/-! ## Schedule loading (main.cpp:163-202)

One ArduinoJson array element `{"time": …, "duty": …}`, after
`obj["time"].as<String>()` and `obj["duty"].as<int>()` have extracted the
raw field values. -/

/-- A deserialized schedule entry. -/
structure JsonEntry where
  time : String
  duty : ℤ
deriving DecidableEq, Repr

/-- `isspace` of the C locale, used by `atol` to skip leading whitespace. -/
def isSpaceChar (c : Char) : Bool :=
  c = ' ' ∨ c = '\t' ∨ c = '\n' ∨ c = '\x0b' ∨ c = '\x0c' ∨ c = '\r'

/-- Accumulate the value of a maximal leading digit run (stops at the first
non-digit). -/
def atolDigits : List Char → ℕ → ℕ
  | [], acc => acc
  | c :: cs, acc => if c.isDigit then atolDigits cs (acc * 10 + (c.toNat - 48)) else acc

/-- `atol` after leading whitespace: an optional sign followed by a maximal
digit run; no digits means 0. -/
def atolSigned : List Char → ℤ
  | [] => 0
  | c :: cs =>
    if c = '-' then -(atolDigits cs 0 : ℤ)
    else if c = '+' then (atolDigits cs 0 : ℤ)
    else (atolDigits (c :: cs) 0 : ℤ)

/-- Arduino `String::toInt()`, which is `atol` on the underlying buffer:
skip leading whitespace, optional sign, longest leading digit run, 0 when no
digits are found. -/
def toIntModel (cs : List Char) : ℤ :=
  atolSigned (cs.dropWhile isSpaceChar)

/-- Arduino `String::indexOf(':')`: index of the first `':'`, or -1 when
absent. -/
def idxOfColon : List Char → ℤ
  | [] => -1
  | c :: cs =>
    if c = ':' then 0
    else
      let r := idxOfColon cs
      if r < 0 then -1 else r + 1

/-- The per-entry body of the load loop (main.cpp:184-196): split the time
string at its first `':'` — kept only when `colonPos > 0` — parse the two
substrings with `toInt`, and build the point `hours + minutes/60` with the
entry's duty stored verbatim. -/
def parsePoint (e : JsonEntry) : Option SchedulePoint :=
  let cs := e.time.data
  let colonPos := idxOfColon cs
  if 0 < colonPos then
    let hours := toIntModel (cs.take colonPos.toNat)
    let minutes := toIntModel (cs.drop (colonPos.toNat + 1))
    some ⟨(hours : ℚ) + (minutes : ℚ) / 60, e.duty⟩
  else none

/-- `loadScheduleFromPreferences` (main.cpp:163-202) applied to the raw text
read back from the store, with ArduinoJson's `deserializeJson` abstracted as
`parse`.  The vector is cleared first, so a total parse failure (`none`)
leaves the model empty rather than rolling back. -/
def loadSchedule (parse : String → Option (List JsonEntry)) (text : String) :
    List SchedulePoint :=
  match parse text with
  | none => []
  | some entries => entries.filterMap parsePoint

/-! ## Device state and HTTP handlers -/

/-- The mutable globals the claims touch: the persisted `schedule/points`
string, the in-memory `schedulePoints` vector, and the fade-limited
`currentDutyPWM`. -/
structure DeviceState where
  storedPoints : String
  schedulePoints : List SchedulePoint
  currentDutyPWM : ℚ
deriving DecidableEq, Repr

/-- `calculateCurrentDuty` with its state effect: the `std::sort` at
main.cpp:82 sorts the stored vector in place (skipped by the early return
when the model is empty).  Parameterized by the sort implementation. -/
def calculateCurrentDutyMWith (sortImpl : List SchedulePoint → List SchedulePoint)
    (st : DeviceState) (currentTime : ℚ) : ℚ × DeviceState :=
  (calculateCurrentDutyWith sortImpl st.schedulePoints currentTime,
   if st.schedulePoints = [] then st
   else { st with schedulePoints := sortImpl st.schedulePoints })

/-- The stateful `calculateCurrentDuty` with the executable stable sort
model plugged in. -/
def calculateCurrentDutyM (st : DeviceState) (currentTime : ℚ) : ℚ × DeviceState :=
  calculateCurrentDutyMWith sortPoints st currentTime

/-- `updatePWMFromSchedule` (main.cpp:142-161): recompute the target and
advance `currentDutyPWM` one fade step toward it. -/
def updatePWMFromScheduleM (st : DeviceState) (currentTime : ℚ) : DeviceState :=
  let r := calculateCurrentDutyM st currentTime
  { r.2 with currentDutyPWM := fadeTick st.currentDutyPWM r.1 fadeStep }

/-- `handleSaveSchedule` (main.cpp:310-328), the `replaceSchedule`
operation, on a request carrying `text`: persist the raw text unvalidated,
reload the model from it, then update the PWM immediately. -/
def handleSaveScheduleM (parse : String → Option (List JsonEntry))
    (st : DeviceState) (text : String) (currentTime : ℚ) : DeviceState :=
  let st := { st with storedPoints := text }
  let st := { st with schedulePoints := loadSchedule parse text }
  updatePWMFromScheduleM st currentTime

/-- `handleLoadSchedule` (main.cpp:330-336), the `getSchedule` operation:
serve the persisted string verbatim. -/
def handleLoadScheduleM (st : DeviceState) : String :=
  st.storedPoints

/-- The JSON body `handleStatus` serializes (main.cpp:338-352), minus the
formatted date string. -/
structure StatusReport where
  currentTimeHours : ℚ
  currentDuty : ℚ
  schedulePointCount : ℕ
deriving DecidableEq, Repr

/-- `handleStatus` (main.cpp:338-352), the `getStatus` operation: recompute
the schedule target at request time and report it together with the clock
and the point count.  (`calculateCurrentDuty` still sorts the vector in
place.) -/
def handleStatusM (st : DeviceState) (currentTime : ℚ) : StatusReport × DeviceState :=
  let r := calculateCurrentDutyM st currentTime
  (⟨currentTime, r.1, r.2.schedulePoints.length⟩, r.2)

/-! ## NTP resynchronization (main.cpp:204-228)

`millis()` values are uint32; the model keeps them as naturals and applies
`% 2^32` exactly where the C++ truncates.  The external clock is abstracted
as `epoch : ℕ → ℕ`, the `time(nullptr)` reading as a function of `millis()`;
the clock counts as synced once the epoch reading reaches
`8 * 3600 * 2 = 57600`. -/

/-- `2^32`, the modulus of `unsigned long` arithmetic. -/
def U32 : ℕ := 4294967296

/-- uint32 subtraction `a - b` on values reduced mod `2^32`. -/
def u32sub (a b : ℕ) : ℕ := (a % U32 + U32 - b % U32) % U32

/-- `NTP_SYNC_INTERVAL = 3600000` ms (main.cpp:35). -/
def NTP_SYNC_INTERVAL : ℕ := 3600000

/-- The retry loop of `setupTime` (main.cpp:210-216):
`while (now < 8*3600*2 && retry < 10) { delay(1000); now = time(nullptr); retry++; }`.
`fuel` is the remaining retry budget, `m` the current `millis()`; returns
the `millis()` value when the loop exits. -/
def syncWait (epoch : ℕ → ℕ) : ℕ → ℕ → ℕ
  | 0, m => m
  | fuel + 1, m => if epoch m < 57600 then syncWait epoch fuel (m + 1000) else m

/-- `setupTime` (main.cpp:204-219) called at `millis() = m`: run the bounded
retry loop and return the new `lastNTPSync`, namely `millis()` at loop
exit. -/
def setupTime (epoch : ℕ → ℕ) (m : ℕ) : ℕ :=
  syncWait epoch 10 m

/-- `syncTimeIfNeeded` (main.cpp:221-228) at `millis() = m` with last-sync
marker `last`: when the uint32 elapsed time reaches the interval, run
`setupTime` (the attempt) and store the resulting marker; the Bool records
whether an attempt was made. -/
def syncTimeIfNeeded (epoch : ℕ → ℕ) (m last : ℕ) : Bool × ℕ :=
  if NTP_SYNC_INTERVAL ≤ u32sub m last then (true, setupTime epoch m % U32)
  else (false, last)

/-! ## Basic lemmas about the sort and the scan -/

theorem insertSorted_perm (p : SchedulePoint) (l : List SchedulePoint) :
    List.Perm (insertSorted p l) (p :: l) := by
  induction l with
  | nil => exact List.Perm.refl _
  | cons q qs ih =>
    rw [insertSorted]
    split
    · exact (ih.cons q).trans (List.Perm.swap p q qs)
    · exact List.Perm.refl _

theorem sortPoints_perm (l : List SchedulePoint) : List.Perm (sortPoints l) l := by
  induction l with
  | nil => exact List.Perm.refl _
  | cons p ps ih => exact (insertSorted_perm p (sortPoints ps)).trans (ih.cons p)

theorem mem_sortPoints {q : SchedulePoint} {l : List SchedulePoint} :
    q ∈ sortPoints l ↔ q ∈ l :=
  (sortPoints_perm l).mem_iff

theorem sortPoints_sorted (l : List SchedulePoint) :
    (sortPoints l).Pairwise (fun a b => a.time ≤ b.time) := by
  induction l with
  | nil => exact List.Pairwise.nil
  | cons p ps ih =>
    rw [sortPoints]
    generalize hs : sortPoints ps = s at ih
    clear hs
    induction s with
    | nil => simp [insertSorted]
    | cons q qs ihq =>
      rw [insertSorted]
      rcases List.pairwise_cons.mp ih with ⟨hq, hqs⟩
      split
      next hlt =>
        refine List.pairwise_cons.mpr ⟨?_, ihq hqs⟩
        intro r hr
        rcases List.mem_cons.mp ((insertSorted_perm p qs).mem_iff.mp hr) with h | h
        · exact h ▸ le_of_lt hlt
        · exact hq r h
      next hge =>
        refine List.pairwise_cons.mpr ⟨?_, ih⟩
        intro r hr
        rcases List.mem_cons.mp hr with rfl | h
        · exact le_of_not_lt hge
        · exact le_trans (le_of_not_lt hge) (hq r h)

theorem scanStepBefore_before (t : ℚ) (s : ScanState) (p : SchedulePoint) :
    (scanStepBefore t s p).before = p ∨ (scanStepBefore t s p).before = s.before := by
  rw [scanStepBefore]
  split
  · exact Or.inl rfl
  · exact Or.inr rfl

theorem scanStepBefore_after (t : ℚ) (s : ScanState) (p : SchedulePoint) :
    (scanStepBefore t s p).after = s.after := by
  rw [scanStepBefore]
  split <;> rfl

theorem scanStepAfter_before (t : ℚ) (s : ScanState) (p : SchedulePoint) :
    (scanStepAfter t s p).before = s.before := by
  rw [scanStepAfter]
  split <;> rfl

theorem scanStepAfter_after (t : ℚ) (s : ScanState) (p : SchedulePoint) :
    (scanStepAfter t s p).after = p ∨ (scanStepAfter t s p).after = s.after := by
  rw [scanStepAfter]
  split
  · exact Or.inl rfl
  · exact Or.inr rfl

theorem scanStep_before (t : ℚ) (s : ScanState) (p : SchedulePoint) :
    (scanStep t s p).before = p ∨ (scanStep t s p).before = s.before := by
  rw [scanStep, scanStepAfter_before]
  exact scanStepBefore_before t s p

theorem scanStep_after (t : ℚ) (s : ScanState) (p : SchedulePoint) :
    (scanStep t s p).after = p ∨ (scanStep t s p).after = s.after := by
  rw [scanStep]
  rcases scanStepAfter_after t (scanStepBefore t s p) p with h | h
  · exact Or.inl h
  · exact Or.inr (h.trans (scanStepBefore_after t s p))

theorem foldl_scan_before (t : ℚ) (l : List SchedulePoint) (s : ScanState) :
    (l.foldl (scanStep t) s).before = s.before ∨ (l.foldl (scanStep t) s).before ∈ l := by
  induction l generalizing s with
  | nil => exact Or.inl rfl
  | cons p ps ih =>
    rw [List.foldl_cons]
    rcases ih (scanStep t s p) with h | h
    · rcases scanStep_before t s p with hp | hp
      · rw [h, hp]
        exact Or.inr (List.mem_cons_self p ps)
      · exact Or.inl (h.trans hp)
    · exact Or.inr (List.mem_cons_of_mem p h)

theorem foldl_scan_after (t : ℚ) (l : List SchedulePoint) (s : ScanState) :
    (l.foldl (scanStep t) s).after = s.after ∨ (l.foldl (scanStep t) s).after ∈ l := by
  induction l generalizing s with
  | nil => exact Or.inl rfl
  | cons p ps ih =>
    rw [List.foldl_cons]
    rcases ih (scanStep t s p) with h | h
    · rcases scanStep_after t s p with hp | hp
      · rw [h, hp]
        exact Or.inr (List.mem_cons_self p ps)
      · exact Or.inl (h.trans hp)
    · exact Or.inr (List.mem_cons_of_mem p h)

theorem scanPoints_before_mem (t : ℚ) (l : List SchedulePoint) :
    (scanPoints t l).before = ⟨0, 0⟩ ∨ (scanPoints t l).before ∈ l :=
  foldl_scan_before t l _

theorem scanPoints_after_mem (t : ℚ) (l : List SchedulePoint) :
    (scanPoints t l).after = ⟨24, 0⟩ ∨ (scanPoints t l).after ∈ l :=
  foldl_scan_after t l _

theorem headD_mem {l : List SchedulePoint} (h : l ≠ []) (d : SchedulePoint) :
    l.headD d ∈ l := by
  cases l with
  | nil => exact absurd rfl h
  | cons p ps => exact List.mem_cons_self p ps

theorem getLastD_mem {l : List SchedulePoint} (h : l ≠ []) (d : SchedulePoint) :
    l.getLastD d ∈ l := by
  induction l generalizing d with
  | nil => exact absurd rfl h
  | cons p ps ih =>
    cases ps with
    | nil => exact List.mem_cons_self p []
    | cons q qs =>
      rw [List.getLastD_cons]
      exact List.mem_cons_of_mem p (ih (List.cons_ne_nil q qs) p)

theorem constrain_bounds (x lo hi : ℚ) (h : lo ≤ hi) :
    lo ≤ constrain x lo hi ∧ constrain x lo hi ≤ hi := by
  rw [constrain]
  split
  · exact ⟨le_refl lo, h⟩
  next h1 =>
    split
    · exact ⟨h, le_refl hi⟩
    next h2 => exact ⟨le_of_not_lt h1, le_of_not_lt h2⟩

/-! ## Claim theorems -/

/-- C3: for every model of exactly two points with the identical time `t`,
carrying duties `d1` then `d2` in insertion order, the sort keeps their
relative input order (stability) and `computeDuty t` returns `d2` — the
scan's last-match-wins rule on `before` combined with the equal-time branch
returning `before.duty`. -/
theorem claimC3_duplicate_time_after_wins (t : ℚ) (d1 d2 : ℤ) :
    sortPoints [⟨t, d1⟩, ⟨t, d2⟩] = [⟨t, d1⟩, ⟨t, d2⟩] ∧
    calculateCurrentDuty [⟨t, d1⟩, ⟨t, d2⟩] t = (d2 : ℚ) := by
  have hsort : sortPoints [(⟨t, d1⟩ : SchedulePoint), ⟨t, d2⟩] = [⟨t, d1⟩, ⟨t, d2⟩] := by
    simp [sortPoints, insertSorted]
  refine ⟨hsort, ?_⟩
  simp [calculateCurrentDuty, calculateCurrentDutyWith, hsort, scanPoints, scanStep, scanStepBefore,
    scanStepAfter, selectBounds, interpolate]

theorem fadeIter_succ_right (fuel c : ℕ) :
    fadeIter (fuel + 1) c = fadeTickF (fadeIter fuel c) := by
  induction fuel generalizing c with
  | zero => rfl
  | succ f ih =>
    have h1 : fadeIter (f + 1 + 1) c = fadeIter (f + 1) (fadeTickF c) := rfl
    rw [h1, ih]
    rfl

theorem fadeIter_add (a b c : ℕ) : fadeIter (a + b) c = fadeIter b (fadeIter a c) := by
  induction a generalizing c with
  | zero =>
    rw [Nat.zero_add]
    rfl
  | succ a ih =>
    have h1 : a + 1 + b = (a + b) + 1 := by omega
    have h2 : fadeIter ((a + b) + 1) c = fadeIter (a + b) (fadeTickF c) := rfl
    rw [h1, h2, ih]
    rfl

theorem fadeSeqF_eq_fadeIter (n : ℕ) : fadeSeqF n = fadeIter n 0 := by
  induction n with
  | zero => rfl
  | succ n ih => rw [fadeSeqF, ih, fadeIter_succ_right]

theorem chunkOk_add (bound a b c : ℕ) :
    chunkOk bound (a + b) c = (chunkOk bound a c && chunkOk bound b (fadeIter a c)) := by
  induction a generalizing c with
  | zero =>
    rw [Nat.zero_add]
    simp [chunkOk, fadeIter]
  | succ a ih =>
    have h1 : a + 1 + b = (a + b) + 1 := by omega
    rw [h1]
    simp only [chunkOk, fadeIter]
    rw [ih]
    simp [Bool.and_assoc]

theorem chunkOk_spec (bound : ℕ) :
    ∀ fuel c, chunkOk bound fuel c = true →
      ∀ i, i < fuel →
        fadeIter i c ≠ targetF ∧ fadeTickF (fadeIter i c) - fadeIter i c ≤ bound := by
  intro fuel
  induction fuel with
  | zero =>
    intro c _ i hi
    exact absurd hi (Nat.not_lt_zero i)
  | succ f ih =>
    intro c h i hi
    simp only [chunkOk, Bool.and_eq_true, bne_iff_ne, Nat.ble_eq] at h
    obtain ⟨⟨hne, hble⟩, hrest⟩ := h
    cases i with
    | zero => exact ⟨hne, hble⟩
    | succ j =>
      have h1 : fadeIter (j + 1) c = fadeIter j (fadeTickF c) := rfl
      rw [h1]
      exact ih (fadeTickF c) hrest j (by omega)

set_option maxRecDepth 8000 in
/-- The binary32 fade run from 0 over 500 ticks, evaluated in ten 50-tick
chunks: the value reached, and the check that no tick starts from the target
and no tick moves by more than `fadeStepF + 256`. -/
theorem fade_run_500 :
    fadeIter 500 0 = 6710860800 ∧ chunkOk (fadeStepF + 256) 500 0 = true := by
  have i1 : fadeIter 50 0 = 671088320 := by decide
  have i2 : fadeIter 50 671088320 = 1342177536 := by decide
  have i3 : fadeIter 50 1342177536 = 2013268736 := by decide
  have i4 : fadeIter 50 2013268736 = 2684359936 := by decide
  have i5 : fadeIter 50 2684359936 = 3355451136 := by decide
  have i6 : fadeIter 50 3355451136 = 4026542336 := by decide
  have i7 : fadeIter 50 4026542336 = 4697625600 := by decide
  have i8 : fadeIter 50 4697625600 = 5368704000 := by decide
  have i9 : fadeIter 50 5368704000 = 6039782400 := by decide
  have i10 : fadeIter 50 6039782400 = 6710860800 := by decide
  have c1 : chunkOk (fadeStepF + 256) 50 0 = true := by decide
  have c2 : chunkOk (fadeStepF + 256) 50 671088320 = true := by decide
  have c3 : chunkOk (fadeStepF + 256) 50 1342177536 = true := by decide
  have c4 : chunkOk (fadeStepF + 256) 50 2013268736 = true := by decide
  have c5 : chunkOk (fadeStepF + 256) 50 2684359936 = true := by decide
  have c6 : chunkOk (fadeStepF + 256) 50 3355451136 = true := by decide
  have c7 : chunkOk (fadeStepF + 256) 50 4026542336 = true := by decide
  have c8 : chunkOk (fadeStepF + 256) 50 4697625600 = true := by decide
  have c9 : chunkOk (fadeStepF + 256) 50 5368704000 = true := by decide
  have c10 : chunkOk (fadeStepF + 256) 50 6039782400 = true := by decide
  have e100 : fadeIter 100 0 = 1342177536 := by
    rw [(by norm_num : (100 : ℕ) = 50 + 50), fadeIter_add, i1, i2]
  have e150 : fadeIter 150 0 = 2013268736 := by
    rw [(by norm_num : (150 : ℕ) = 100 + 50), fadeIter_add, e100, i3]
  have e200 : fadeIter 200 0 = 2684359936 := by
    rw [(by norm_num : (200 : ℕ) = 150 + 50), fadeIter_add, e150, i4]
  have e250 : fadeIter 250 0 = 3355451136 := by
    rw [(by norm_num : (250 : ℕ) = 200 + 50), fadeIter_add, e200, i5]
  have e300 : fadeIter 300 0 = 4026542336 := by
    rw [(by norm_num : (300 : ℕ) = 250 + 50), fadeIter_add, e250, i6]
  have e350 : fadeIter 350 0 = 4697625600 := by
    rw [(by norm_num : (350 : ℕ) = 300 + 50), fadeIter_add, e300, i7]
  have e400 : fadeIter 400 0 = 5368704000 := by
    rw [(by norm_num : (400 : ℕ) = 350 + 50), fadeIter_add, e350, i8]
  have e450 : fadeIter 450 0 = 6039782400 := by
    rw [(by norm_num : (450 : ℕ) = 400 + 50), fadeIter_add, e400, i9]
  have e500 : fadeIter 500 0 = 6710860800 := by
    rw [(by norm_num : (500 : ℕ) = 450 + 50), fadeIter_add, e450, i10]
  have k100 : chunkOk (fadeStepF + 256) 100 0 = true := by
    rw [(by norm_num : (100 : ℕ) = 50 + 50), chunkOk_add, i1, c1, c2]
    rfl
  have k150 : chunkOk (fadeStepF + 256) 150 0 = true := by
    rw [(by norm_num : (150 : ℕ) = 100 + 50), chunkOk_add, e100, k100, c3]
    rfl
  have k200 : chunkOk (fadeStepF + 256) 200 0 = true := by
    rw [(by norm_num : (200 : ℕ) = 150 + 50), chunkOk_add, e150, k150, c4]
    rfl
  have k250 : chunkOk (fadeStepF + 256) 250 0 = true := by
    rw [(by norm_num : (250 : ℕ) = 200 + 50), chunkOk_add, e200, k200, c5]
    rfl
  have k300 : chunkOk (fadeStepF + 256) 300 0 = true := by
    rw [(by norm_num : (300 : ℕ) = 250 + 50), chunkOk_add, e250, k250, c6]
    rfl
  have k350 : chunkOk (fadeStepF + 256) 350 0 = true := by
    rw [(by norm_num : (350 : ℕ) = 300 + 50), chunkOk_add, e300, k300, c7]
    rfl
  have k400 : chunkOk (fadeStepF + 256) 400 0 = true := by
    rw [(by norm_num : (400 : ℕ) = 350 + 50), chunkOk_add, e350, k350, c8]
    rfl
  have k450 : chunkOk (fadeStepF + 256) 450 0 = true := by
    rw [(by norm_num : (450 : ℕ) = 400 + 50), chunkOk_add, e400, k400, c9]
    rfl
  have k500 : chunkOk (fadeStepF + 256) 500 0 = true := by
    rw [(by norm_num : (500 : ℕ) = 450 + 50), chunkOk_add, e450, k450, c10]
    rfl
  exact ⟨e500, k500⟩

/-- C4 counterexample: in the program's binary32 arithmetic the fade from 0
toward the constant target 100 has NOT reached 100 after 500 ticks — it
stands at `6710860800/2^26 ≈ 99.9996` — and already the first tick moves the
current duty by `fadeStepF/2^26 = 0.20000000298… > 0.2`, so both "equals 100
after exactly 500 ticks" and "no single tick changes current by more than
0.2" are false of the program. -/
theorem claimC4_counterexample :
    fadeSeqF 500 ≠ targetF ∧
    (fadeSeqF 500 : ℚ) / 2 ^ 26 < 100 ∧
    (fadeSeqF 1 : ℚ) / 2 ^ 26 > 1 / 5 := by
  have h500 : fadeSeqF 500 = 6710860800 := by
    rw [fadeSeqF_eq_fadeIter]
    exact fade_run_500.1
  have h1 : fadeSeqF 1 = 13421773 := by decide
  refine ⟨?_, ?_, ?_⟩
  · rw [h500]
    decide
  · rw [h500]
    norm_num
  · rw [h1]
    norm_num

/-- C4 (amended): `fadeTick` snaps when within the step of the target and
otherwise moves by the step, all in binary32 arithmetic where the stored
step is `fl(0.2) = 13421773/2^26 = 0.20000000298…` (above 0.2 by less than
half a grid unit `2^-27`); consequently, starting from 0 with the constant
target 100, accumulated rounding drift makes the current duty reach 100
after exactly 501 ticks — not `ceil(100/0.2) = 500` — and no single tick
changes it by more than the stored step plus one rounding error
(`≤ (fadeStepF + 256)/2^26 ≈ 0.2000077`). -/
theorem claimC4_fade_convergence_float :
    fadeSeqF 501 = targetF ∧
    (∀ n : ℕ, n ≤ 500 → fadeSeqF n ≠ targetF) ∧
    (∀ n : ℕ, n < 501 → fadeSeqF (n + 1) - fadeSeqF n ≤ fadeStepF + 256) ∧
    0 < (fadeStepF : ℚ) / 2 ^ 26 - 1 / 5 ∧
    (fadeStepF : ℚ) / 2 ^ 26 - 1 / 5 < 1 / 2 ^ 27 := by
  obtain ⟨hval, hok⟩ := fade_run_500
  have hspec := chunkOk_spec (fadeStepF + 256) 500 0 hok
  refine ⟨?_, ?_, ?_, by norm_num [fadeStepF], by norm_num [fadeStepF]⟩
  · rw [fadeSeqF_eq_fadeIter, (by norm_num : (501 : ℕ) = 500 + 1), fadeIter_add, hval]
    decide
  · intro n hn
    rw [fadeSeqF_eq_fadeIter]
    rcases Nat.lt_or_ge n 500 with h | h
    · exact (hspec n h).1
    · have hn500 : n = 500 := by omega
      rw [hn500, hval]
      decide
  · intro n hn
    rw [fadeSeqF_eq_fadeIter, fadeSeqF_eq_fadeIter, fadeIter_succ_right]
    rcases Nat.lt_or_ge n 500 with h | h
    · exact (hspec n h).2
    · have hn500 : n = 500 := by omega
      rw [hn500, hval]
      decide

/-- Witness for C4 (amended): the not-yet-at-target and per-tick-bound
clauses instantiated at the snap tick `n = 500`. -/
theorem claimC4_fade_convergence_float_witness :
    (500 : ℕ) ≤ 500 ∧ fadeSeqF 500 ≠ targetF ∧
    (500 : ℕ) < 501 ∧ fadeSeqF (500 + 1) - fadeSeqF 500 ≤ fadeStepF + 256 :=
  ⟨by norm_num,
   claimC4_fade_convergence_float.2.1 500 (by norm_num),
   by norm_num,
   claimC4_fade_convergence_float.2.2.1 500 (by norm_num)⟩

theorem constrain_eq_self {x lo hi : ℚ} (h1 : ¬x < lo) (h2 : ¬hi < x) :
    constrain x lo hi = x := by
  rw [constrain, if_neg h1, if_neg h2]

/-- On `(12,24)` the single-point model `[(12,80)]` interpolates between the
point and the virtual `(24,0)`: the closed form of the clamped branch. -/
theorem calc_single_late (u : ℚ) (h1 : 12 < u) (h2 : u < 24) :
    calculateCurrentDuty [⟨12, 80⟩] u = 80 - 20 * (u - 12) / 3 := by
  have hb : ¬(u ≤ 12) := not_le.mpr h1
  have hsc : scanPoints u [(⟨12, 80⟩ : SchedulePoint)] =
      ⟨⟨12, 80⟩, ⟨24, 0⟩, true, false⟩ := by
    simp [scanPoints, scanStep, scanStepBefore, scanStepAfter, h1.le, hb]
  have hsel : selectBounds [(⟨12, 80⟩ : SchedulePoint)]
      ⟨⟨12, 80⟩, ⟨24, 0⟩, true, false⟩ = (⟨12, 80⟩, ⟨24, 0⟩) := rfl
  simp only [calculateCurrentDuty, calculateCurrentDutyWith, sortPoints, insertSorted, hsc, hsel]
  rw [if_neg (by simp), if_neg (by simp)]
  simp only [interpolate]
  rw [if_neg (by norm_num)]
  rw [constrain_eq_self (by rw [not_lt]; push_cast; nlinarith)
    (by rw [not_lt]; push_cast; nlinarith)]
  push_cast
  ring

/-- C2: for the single-point model `(12.0, 80)`, `computeDuty` returns 40 at
6.0, 40 at 18.0, 80 at 12.0, 0 at 0.0, and tends to 0 as the time approaches
24 from below (interpolating against the virtual boundary points `(0,0)` and
`(24,0)`). -/
theorem claimC2_single_point_curve :
    calculateCurrentDuty [⟨12, 80⟩] 6 = 40 ∧
    calculateCurrentDuty [⟨12, 80⟩] 18 = 40 ∧
    calculateCurrentDuty [⟨12, 80⟩] 12 = 80 ∧
    calculateCurrentDuty [⟨12, 80⟩] 0 = 0 ∧
    (∀ ε : ℚ, 0 < ε → ∃ δ : ℚ, 0 < δ ∧ ∀ u : ℚ, 24 - δ < u → u < 24 →
      calculateCurrentDuty [⟨12, 80⟩] u < ε) := by
  refine ⟨?_, ?_, ?_, ?_, ?_⟩
  · norm_num [calculateCurrentDuty, calculateCurrentDutyWith, scanPoints, scanStep, scanStepBefore, scanStepAfter,
      selectBounds, interpolate, sortPoints, insertSorted, constrain]
  · norm_num [calculateCurrentDuty, calculateCurrentDutyWith, scanPoints, scanStep, scanStepBefore, scanStepAfter,
      selectBounds, interpolate, sortPoints, insertSorted, constrain]
  · norm_num [calculateCurrentDuty, calculateCurrentDutyWith, scanPoints, scanStep, scanStepBefore, scanStepAfter,
      selectBounds, interpolate, sortPoints, insertSorted, constrain]
  · norm_num [calculateCurrentDuty, calculateCurrentDutyWith, scanPoints, scanStep, scanStepBefore, scanStepAfter,
      selectBounds, interpolate, sortPoints, insertSorted, constrain]
  · intro ε hε
    refine ⟨min 12 (3 * ε / 20), lt_min (by norm_num) (by linarith), ?_⟩
    intro u hu1 hu2
    have hδ1 : min 12 (3 * ε / 20) ≤ 12 := min_le_left _ _
    have hδ2 : min 12 (3 * ε / 20) ≤ 3 * ε / 20 := min_le_right _ _
    have h12 : 12 < u := by linarith
    rw [calc_single_late u h12 hu2]
    linarith

/-- Witness for C2: the limit clause instantiated at `ε = 1`. -/
theorem claimC2_single_point_curve_witness :
    calculateCurrentDuty [⟨12, 80⟩] 6 = 40 ∧ (0 : ℚ) < 1 ∧
    (∃ δ : ℚ, 0 < δ ∧ ∀ u : ℚ, 24 - δ < u → u < 24 →
      calculateCurrentDuty [⟨12, 80⟩] u < 1) :=
  ⟨claimC2_single_point_curve.1, by norm_num,
   claimC2_single_point_curve.2.2.2.2 1 (by norm_num)⟩

theorem interpolate_bounds (t : ℚ) (ba : SchedulePoint × SchedulePoint)
    (h1 : 0 ≤ ba.1.duty) (h2 : ba.1.duty ≤ 100) :
    0 ≤ interpolate t ba ∧ interpolate t ba ≤ 100 := by
  rw [interpolate]
  split
  · constructor
    · exact_mod_cast h1
    · exact_mod_cast h2
  · exact constrain_bounds _ 0 100 (by norm_num)

theorem selectBounds_fst (sorted : List SchedulePoint) (s : ScanState) :
    (selectBounds sorted s).1 = ⟨0, 0⟩ ∨ (selectBounds sorted s).1 = s.before ∨
      (selectBounds sorted s).1 ∈ sorted := by
  rw [selectBounds]
  split
  · cases sorted with
    | nil => exact Or.inl rfl
    | cons p ps => exact Or.inr (Or.inr (getLastD_mem (List.cons_ne_nil p ps) ⟨0, 0⟩))
  · split
    · exact Or.inl rfl
    · exact Or.inr (Or.inl rfl)

/-- C5: on any model whose points lie in the documented domains
(`time ∈ [0,24)`, integer `duty ∈ [0,100]`) and any `currentHours ∈ [0,24)`,
`computeDuty` lands in `[0,100]` — including the unclamped equal-time branch —
and the empty model yields 0 at every time. -/
theorem claimC5_duty_in_range (ps : List SchedulePoint) (t : ℚ)
    (hdom : ∀ p ∈ ps, 0 ≤ p.time ∧ p.time < 24 ∧ 0 ≤ p.duty ∧ p.duty ≤ 100)
    (ht0 : 0 ≤ t) (ht24 : t < 24) :
    (0 ≤ calculateCurrentDuty ps t ∧ calculateCurrentDuty ps t ≤ 100) ∧
    (∀ u : ℚ, 0 ≤ u → u < 24 → calculateCurrentDuty [] u = 0) := by
  refine ⟨?_, fun u _ _ => rfl⟩
  by_cases hps : ps = []
  · subst hps
    norm_num [calculateCurrentDuty, calculateCurrentDutyWith]
  · simp only [calculateCurrentDuty, calculateCurrentDutyWith, if_neg hps]
    split
    · norm_num
    · have hfst : (selectBounds (sortPoints ps) (scanPoints t (sortPoints ps))).1 = ⟨0, 0⟩ ∨
          (selectBounds (sortPoints ps) (scanPoints t (sortPoints ps))).1 ∈ sortPoints ps := by
        rcases selectBounds_fst (sortPoints ps) (scanPoints t (sortPoints ps)) with h | h | h
        · exact Or.inl h
        · rcases scanPoints_before_mem t (sortPoints ps) with hb | hb
          · exact Or.inl (h.trans hb)
          · rw [h]
            exact Or.inr hb
        · exact Or.inr h
      have hduty : 0 ≤ (selectBounds (sortPoints ps) (scanPoints t (sortPoints ps))).1.duty ∧
          (selectBounds (sortPoints ps) (scanPoints t (sortPoints ps))).1.duty ≤ 100 := by
        rcases hfst with h | h
        · rw [h]
          exact ⟨le_refl 0, by norm_num⟩
        · have hd := hdom _ (mem_sortPoints.mp h)
          exact ⟨hd.2.2.1, hd.2.2.2⟩
      exact interpolate_bounds t _ hduty.1 hduty.2

/-- Witness for C5: the in-domain model `[(12,80)]` at `currentHours = 6`. -/
theorem claimC5_duty_in_range_witness :
    (0 ≤ calculateCurrentDuty [⟨12, 80⟩] 6 ∧ calculateCurrentDuty [⟨12, 80⟩] 6 ≤ 100) ∧
    (∀ u : ℚ, 0 ≤ u → u < 24 → calculateCurrentDuty [] u = 0) :=
  claimC5_duty_in_range [⟨12, 80⟩] 6
    (by intro p hp
        rw [List.mem_singleton] at hp
        subst hp
        norm_num)
    (by norm_num) (by norm_num)

/-- C1 counterexample: a total-parse-failure text (here `"oops"`, which no
JSON parser accepts, witnessed by the abstract parser returning `none`) is
persisted verbatim by `replaceSchedule`, so `getSchedule` echoes the
malformed text back instead of `[]` — main.cpp:314-315 stores the raw
request argument before parsing and main.cpp:330-336 serves the stored
string unvalidated. -/
theorem claimC1_counterexample :
    (fun _ : String => (none : Option (List JsonEntry))) "oops" = none ∧
    handleLoadScheduleM (handleSaveScheduleM (fun _ => none) ⟨"[]", [], 0⟩ "oops" 0) = "oops" ∧
    ("oops" : String) ≠ "[]" :=
  ⟨rfl, by decide, by decide⟩

/-- C1 (amended): malformed JSON passed to `replaceSchedule` leaves the
schedule model empty (not rolled back) and `computeDuty` returning 0 for
every time in `[0,24)`, but `getSchedule()` returns the malformed text
verbatim (the raw string is persisted before parsing and echoed back), not
`[]`. -/
theorem claimC1_malformed_fail_safe (parse : String → Option (List JsonEntry))
    (st : DeviceState) (text : String) (t : ℚ) (hmal : parse text = none) :
    (handleSaveScheduleM parse st text t).schedulePoints = [] ∧
    handleLoadScheduleM (handleSaveScheduleM parse st text t) = text ∧
    (∀ u : ℚ, 0 ≤ u → u < 24 →
      calculateCurrentDuty (handleSaveScheduleM parse st text t).schedulePoints u = 0) := by
  have hload : loadSchedule parse text = [] := by
    unfold loadSchedule
    rw [hmal]
  simp [handleSaveScheduleM, hload, updatePWMFromScheduleM, calculateCurrentDutyM,
    calculateCurrentDutyMWith, handleLoadScheduleM, calculateCurrentDuty,
    calculateCurrentDutyWith]

/-- Witness for C1 (amended): a concrete malformed save. -/
theorem claimC1_malformed_fail_safe_witness :
    (handleSaveScheduleM (fun _ => none) ⟨"[]", [], 0⟩ "nonsense" 0).schedulePoints = [] ∧
    handleLoadScheduleM (handleSaveScheduleM (fun _ => none) ⟨"[]", [], 0⟩ "nonsense" 0) =
      "nonsense" ∧
    (∀ u : ℚ, 0 ≤ u → u < 24 →
      calculateCurrentDuty
        (handleSaveScheduleM (fun _ => none) ⟨"[]", [], 0⟩ "nonsense" 0).schedulePoints u = 0) :=
  claimC1_malformed_fail_safe (fun _ => none) ⟨"[]", [], 0⟩ "nonsense" 0 rfl

/-- C8 counterexample: evaluating `computeDuty` does NOT leave the stored
point sequence as it was — the in-place `std::sort` at main.cpp:82 reorders
the unsorted model `[(12,80),(6,40)]` (a two-element range, where every
conforming `std::sort` produces this result). -/
theorem claimC8_counterexample :
    (calculateCurrentDutyM ⟨"[]", [⟨12, 80⟩, ⟨6, 40⟩], 0⟩ 6).2.schedulePoints ≠
      [⟨12, 80⟩, ⟨6, 40⟩] := by
  decide

/-- C8 (amended): evaluating `computeDuty` sorts the stored point sequence
in place: for ANY sort conforming to the `std::sort` contract (`sortSpec` —
a time-sorted permutation, with the order of equal-time points unspecified,
and in libstdc++ unstable above its 16-element insertion-sort threshold),
the stored sequence after the call is a permutation of the one
before, sorted ascending by time — the multiset of points is preserved, and
the persisted string and the PWM state are untouched.  The multiset is still
mutated only by a whole-model load or replace; identity of the stored
sequence, tie order, and value-level idempotence across repeated calls are
NOT guaranteed. -/
theorem claimC8_sort_side_effect (sortImpl : List SchedulePoint → List SchedulePoint)
    (hspec : sortSpec sortImpl) (st : DeviceState) (t : ℚ) :
    List.Perm (calculateCurrentDutyMWith sortImpl st t).2.schedulePoints st.schedulePoints ∧
    ((calculateCurrentDutyMWith sortImpl st t).2.schedulePoints).Pairwise
      (fun a b => a.time ≤ b.time) ∧
    (calculateCurrentDutyMWith sortImpl st t).2.storedPoints = st.storedPoints ∧
    (calculateCurrentDutyMWith sortImpl st t).2.currentDutyPWM = st.currentDutyPWM := by
  by_cases hps : st.schedulePoints = []
  · simp only [calculateCurrentDutyMWith, if_pos hps]
    exact ⟨List.Perm.refl _, by rw [hps]; exact List.Pairwise.nil, trivial, trivial⟩
  · simp only [calculateCurrentDutyMWith, if_neg hps]
    exact ⟨hspec.1 _, hspec.2 _, trivial, trivial⟩

/-- Witness for C8 (amended): the stable insertion sort satisfies the
`std::sort` contract; instantiated on a concrete unsorted model. -/
theorem claimC8_sort_side_effect_witness :
    List.Perm
      (calculateCurrentDutyMWith sortPoints ⟨"[]", [⟨12, 80⟩, ⟨6, 40⟩], 0⟩ 6).2.schedulePoints
      [⟨12, 80⟩, ⟨6, 40⟩] ∧
    ((calculateCurrentDutyMWith sortPoints
        ⟨"[]", [⟨12, 80⟩, ⟨6, 40⟩], 0⟩ 6).2.schedulePoints).Pairwise
      (fun a b => a.time ≤ b.time) ∧
    (calculateCurrentDutyMWith sortPoints
        ⟨"[]", [⟨12, 80⟩, ⟨6, 40⟩], 0⟩ 6).2.storedPoints = "[]" ∧
    (calculateCurrentDutyMWith sortPoints
        ⟨"[]", [⟨12, 80⟩, ⟨6, 40⟩], 0⟩ 6).2.currentDutyPWM = 0 :=
  claimC8_sort_side_effect sortPoints
    ⟨fun l => sortPoints_perm l, fun l => sortPoints_sorted l⟩
    ⟨"[]", [⟨12, 80⟩, ⟨6, 40⟩], 0⟩ 6

/-- C9: `getStatus` reports as `currentDuty` the instantaneous schedule
target recomputed at request time — it does not depend on the fade-limited
`currentDutyPWM` at all — and in a concrete mid-fade state the two differ
(target 80 versus fade-limited 0.2), with the status exposing only the
former. -/
theorem claimC9_status_reports_schedule_target (st : DeviceState) (t q : ℚ) :
    (handleStatusM st t).1.currentDuty = calculateCurrentDuty st.schedulePoints t ∧
    (handleStatusM { st with currentDutyPWM := q } t).1 = (handleStatusM st t).1 ∧
    ((handleStatusM (updatePWMFromScheduleM ⟨"s", [⟨12, 80⟩], 0⟩ 12) 12).1.currentDuty = 80 ∧
     (updatePWMFromScheduleM ⟨"s", [⟨12, 80⟩], 0⟩ 12).currentDutyPWM = 1 / 5 ∧
     (80 : ℚ) ≠ 1 / 5) := by
  refine ⟨rfl, ?_, ?_, ?_, by norm_num⟩
  · by_cases hps : st.schedulePoints = [] <;>
      simp [handleStatusM, calculateCurrentDutyM, calculateCurrentDutyMWith, hps]
  · norm_num [handleStatusM, updatePWMFromScheduleM, calculateCurrentDutyM, calculateCurrentDutyMWith, fadeTick, fadeStep,
      calculateCurrentDuty, calculateCurrentDutyWith, scanPoints, scanStep, scanStepBefore, scanStepAfter,
      selectBounds, interpolate, sortPoints, insertSorted, constrain]
  · norm_num [updatePWMFromScheduleM, calculateCurrentDutyM, calculateCurrentDutyMWith, fadeTick, fadeStep,
      calculateCurrentDuty, calculateCurrentDutyWith, scanPoints, scanStep, scanStepBefore, scanStepAfter,
      selectBounds, interpolate, sortPoints, insertSorted, constrain]

/-! ## Lemmas on the time-string split -/

theorem idxOfColon_nonneg_iff (l : List Char) : 0 ≤ idxOfColon l ↔ ':' ∈ l := by
  induction l with
  | nil => simp [idxOfColon]
  | cons c cs ih =>
    rw [idxOfColon]
    by_cases hc : c = ':'
    · subst hc
      simp
    · have hcc : ¬((':' : Char) = c) := fun h => hc h.symm
      rw [if_neg hc]
      rcases lt_or_le (idxOfColon cs) 0 with hr | hr
      · rw [if_pos hr]
        have hnm : ':' ∉ cs := fun hm => absurd (ih.mpr hm) (not_le.mpr hr)
        simp [hcc, hnm]
      · rw [if_neg (not_lt.mpr hr)]
        have hmem : ':' ∈ cs := ih.mp hr
        have h1 : (0 : ℤ) ≤ idxOfColon cs + 1 := by linarith
        simp [h1, hmem]

theorem idxOfColon_pos_iff (l : List Char) :
    0 < idxOfColon l ↔ ':' ∈ l ∧ l.head? ≠ some ':' := by
  cases l with
  | nil => simp [idxOfColon]
  | cons c cs =>
    rw [idxOfColon]
    by_cases hc : c = ':'
    · subst hc
      simp
    · have hcc : ¬((':' : Char) = c) := fun h => hc h.symm
      rw [if_neg hc]
      rcases lt_or_le (idxOfColon cs) 0 with hr | hr
      · rw [if_pos hr]
        have hnm : ':' ∉ cs :=
          fun hm => absurd ((idxOfColon_nonneg_iff cs).mpr hm) (not_le.mpr hr)
        simp [hcc, hnm]
      · rw [if_neg (not_lt.mpr hr)]
        have hmem : ':' ∈ cs := (idxOfColon_nonneg_iff cs).mp hr
        have h1 : (0 : ℤ) < idxOfColon cs + 1 := by linarith
        simp [h1, hmem, hc]

theorem idxOfColon_take (l : List Char) (h : ':' ∈ l) :
    l.take (idxOfColon l).toNat = l.takeWhile (fun c => c ≠ ':') := by
  induction l with
  | nil => cases h
  | cons c cs ih =>
    by_cases hc : c = ':'
    · subst hc
      rw [idxOfColon, if_pos rfl]
      simp [List.takeWhile_cons]
    · have hmem : ':' ∈ cs := by
        rcases List.mem_cons.mp h with h1 | h1
        · exact absurd h1.symm hc
        · exact h1
      have hr : 0 ≤ idxOfColon cs := (idxOfColon_nonneg_iff cs).mpr hmem
      rw [idxOfColon, if_neg hc, if_neg (not_lt.mpr hr)]
      have htn : (idxOfColon cs + 1).toNat = (idxOfColon cs).toNat + 1 := by omega
      rw [htn, List.take_succ_cons, List.takeWhile_cons, if_pos (by simp [hc]), ih hmem]

theorem idxOfColon_drop (l : List Char) (h : ':' ∈ l) :
    l.drop ((idxOfColon l).toNat + 1) = (l.dropWhile (fun c => c ≠ ':')).tail := by
  induction l with
  | nil => cases h
  | cons c cs ih =>
    by_cases hc : c = ':'
    · subst hc
      rw [idxOfColon, if_pos rfl]
      simp [List.dropWhile_cons]
    · have hmem : ':' ∈ cs := by
        rcases List.mem_cons.mp h with h1 | h1
        · exact absurd h1.symm hc
        · exact h1
      have hr : 0 ≤ idxOfColon cs := (idxOfColon_nonneg_iff cs).mpr hmem
      rw [idxOfColon, if_neg hc, if_neg (not_lt.mpr hr)]
      have htn : (idxOfColon cs + 1).toNat + 1 = ((idxOfColon cs).toNat + 1) + 1 := by omega
      rw [htn, List.drop_succ_cons, List.dropWhile_cons, if_pos (by simp [hc]), ih hmem]

/-- C6 counterexample: the entry with time `":30"` CONTAINS a `':'`
separator, yet it is dropped — `indexOf(':')` returns 0 there and the guard
at main.cpp:189 requires `colonPos > 0`, so "included iff the time string
contains a separator" is false. -/
theorem claimC6_counterexample :
    ':' ∈ (":30" : String).data ∧
    loadSchedule (fun _ => some [⟨":30", 50⟩]) "req" = [] := by
  decide

/-- C6 (amended): an entry is included in the model iff its time string
contains a `':'` whose FIRST occurrence is at a positive index —
equivalently, it contains `':'` and does not start with one; entries failing
this are silently dropped.  For included entries, the hour substring (before
the first colon) and minute substring (after it) are parsed with `atol`
semantics — optional leading whitespace and sign, then the longest leading
digit run, 0 when there are no digits — and the point is
`hours + minutes/60` with the entry's duty verbatim. -/
theorem claimC6_lenient_time_parse (e : JsonEntry) :
    ((∃ p, parsePoint e = some p) ↔
      ':' ∈ e.time.data ∧ e.time.data.head? ≠ some ':') ∧
    (∀ p, parsePoint e = some p →
      p.time = (toIntModel (e.time.data.takeWhile (fun c => c ≠ ':')) : ℚ) +
        (toIntModel ((e.time.data.dropWhile (fun c => c ≠ ':')).tail) : ℚ) / 60 ∧
      p.duty = e.duty) := by
  constructor
  · constructor
    · rintro ⟨p, hp⟩
      simp only [parsePoint] at hp
      by_cases h : 0 < idxOfColon e.time.data
      · exact (idxOfColon_pos_iff e.time.data).mp h
      · rw [if_neg h] at hp
        cases hp
    · intro hr
      have h := (idxOfColon_pos_iff e.time.data).mpr hr
      refine ⟨⟨(toIntModel (e.time.data.take (idxOfColon e.time.data).toNat) : ℚ) +
        (toIntModel (e.time.data.drop ((idxOfColon e.time.data).toNat + 1)) : ℚ) / 60,
        e.duty⟩, ?_⟩
      simp only [parsePoint]
      rw [if_pos h]
  · intro p hp
    simp only [parsePoint] at hp
    by_cases h : 0 < idxOfColon e.time.data
    · rw [if_pos h] at hp
      have hmem : ':' ∈ e.time.data := (idxOfColon_nonneg_iff e.time.data).mp h.le
      cases hp
      constructor
      · rw [idxOfColon_take e.time.data hmem, idxOfColon_drop e.time.data hmem]
      · rfl
    · rw [if_neg h] at hp
      cases hp

/-- Witness for C6 (amended): the entry `("1a:2b", 7)` parses (leniently) to
time `1 + 2/60 = 31/30` with duty 7, demonstrating both inclusion and the
numeric-prefix parse. -/
theorem claimC6_lenient_time_parse_witness :
    (⟨(31 : ℚ) / 30, 7⟩ : SchedulePoint).time =
      (toIntModel (("1a:2b" : String).data.takeWhile (fun c => c ≠ ':')) : ℚ) +
        (toIntModel ((("1a:2b" : String).data.dropWhile (fun c => c ≠ ':')).tail) : ℚ) / 60 ∧
    (⟨(31 : ℚ) / 30, 7⟩ : SchedulePoint).duty = (⟨"1a:2b", 7⟩ : JsonEntry).duty :=
  (claimC6_lenient_time_parse ⟨"1a:2b", 7⟩).2 ⟨31 / 30, 7⟩
    (by simp +decide [parsePoint, idxOfColon, toIntModel, atolSigned, atolDigits, isSpaceChar]
        norm_num)

/-- C10 counterexample: the entry with time `":99"` contains a separator and
carries the out-of-range duty 500, yet it is NOT stored (dropped by the
`colonPos > 0` guard) — so "every separator-containing entry is stored
verbatim" is false. -/
theorem claimC10_counterexample :
    ':' ∈ (":99" : String).data ∧
    loadSchedule (fun _ => some [⟨":99", 500⟩]) "req" = [] := by
  decide

/-- C10 (amended): loading performs no range validation — every entry whose
time string has its first `':'` at a positive index is stored with its duty
verbatim, and concretely `("99:99", 500)` enters the model as the point
`(100.65, 500)`: time `99 + 99/60 = 2013/20` outside `[0,24)` and duty 500
outside `[0,100]`, unchanged. -/
theorem claimC10_no_range_validation (e : JsonEntry)
    (h : 0 < idxOfColon e.time.data) :
    (∃ p, parsePoint e = some p ∧ p.duty = e.duty) ∧
    loadSchedule (fun _ => some [⟨"99:99", 500⟩]) "req" = [⟨2013 / 20, 500⟩] ∧
    (2013 / 20 : ℚ) = 99 + 99 / 60 ∧ ¬((2013 / 20 : ℚ) < 24) ∧ ¬((500 : ℤ) ≤ 100) := by
  refine ⟨?_, ?_, by norm_num, by norm_num, by norm_num⟩
  · refine ⟨⟨(toIntModel (e.time.data.take (idxOfColon e.time.data).toNat) : ℚ) +
      (toIntModel (e.time.data.drop ((idxOfColon e.time.data).toNat + 1)) : ℚ) / 60,
      e.duty⟩, ?_, rfl⟩
    simp only [parsePoint]
    rw [if_pos h]
  · simp +decide [loadSchedule, parsePoint, idxOfColon, toIntModel, atolSigned,
      atolDigits, isSpaceChar]
    norm_num

/-- Witness for C10 (amended): instantiated at the entry `("99:99", 500)`. -/
theorem claimC10_no_range_validation_witness :
    0 < idxOfColon ("99:99" : String).data ∧
    (∃ p, parsePoint ⟨"99:99", 500⟩ = some p ∧
      p.duty = (⟨"99:99", 500⟩ : JsonEntry).duty) :=
  ⟨by decide, (claimC10_no_range_validation ⟨"99:99", 500⟩ (by decide)).1⟩

/-! ## NTP-resync lemmas -/

theorem syncWait_bounds (epoch : ℕ → ℕ) (fuel m : ℕ) :
    m ≤ syncWait epoch fuel m ∧ syncWait epoch fuel m ≤ m + 1000 * fuel := by
  induction fuel generalizing m with
  | zero => simp [syncWait]
  | succ f ih =>
    rw [syncWait]
    split
    · obtain ⟨h1, h2⟩ := ih (m + 1000)
      exact ⟨by omega, by omega⟩
    · exact ⟨le_refl m, by omega⟩

theorem syncWait_of_synced (epoch : ℕ → ℕ) (fuel m : ℕ) (h : 57600 ≤ epoch m) :
    syncWait epoch fuel m = m := by
  cases fuel with
  | zero => rfl
  | succ f => rw [syncWait, if_neg (not_lt.mpr h)]

theorem syncWait_all_fail (epoch : ℕ → ℕ) (h : ∀ k, epoch k < 57600)
    (fuel : ℕ) : ∀ m, syncWait epoch fuel m = m + 1000 * fuel := by
  induction fuel with
  | zero => intro m; simp [syncWait]
  | succ f ih =>
    intro m
    rw [syncWait, if_pos (h m), ih (m + 1000)]
    ring

/-- C7: `syncTimeIfNeeded` attempts a re-synchronization exactly when the
(uint32) elapsed time since the last-sync marker is at least the 1-hour
interval; every attempt — whether the clock was already valid (no retries)
or never becomes valid (all 10 bounded retries, 10 s) — resets the marker to
the `millis()` value current at the end of the attempt, and while less than
a full interval has elapsed since any marker value, no attempt occurs. -/
theorem claimC7_resync_marker_reset (epoch : ℕ → ℕ) (m last : ℕ) :
    ((syncTimeIfNeeded epoch m last).1 = true ↔ NTP_SYNC_INTERVAL ≤ u32sub m last) ∧
    (NTP_SYNC_INTERVAL ≤ u32sub m last →
      (syncTimeIfNeeded epoch m last).2 = setupTime epoch m % U32 ∧
      m ≤ setupTime epoch m ∧ setupTime epoch m ≤ m + 10000) ∧
    (¬NTP_SYNC_INTERVAL ≤ u32sub m last → (syncTimeIfNeeded epoch m last).2 = last) ∧
    (57600 ≤ epoch m → setupTime epoch m = m) ∧
    ((∀ k, epoch k < 57600) → setupTime epoch m = m + 10000) ∧
    (∀ epoch2 : ℕ → ℕ, ∀ m2 last2 : ℕ, u32sub m2 last2 < NTP_SYNC_INTERVAL →
      (syncTimeIfNeeded epoch2 m2 last2).1 = false) := by
  refine ⟨?_, ?_, ?_, ?_, ?_, ?_⟩
  · by_cases h : NTP_SYNC_INTERVAL ≤ u32sub m last <;>
      simp [syncTimeIfNeeded, h]
  · intro h
    rw [syncTimeIfNeeded, if_pos h]
    obtain ⟨h1, h2⟩ := syncWait_bounds epoch 10 m
    exact ⟨rfl, h1, by rw [setupTime]; omega⟩
  · intro h
    rw [syncTimeIfNeeded, if_neg h]
  · intro h
    rw [setupTime]
    exact syncWait_of_synced epoch 10 m h
  · intro h
    rw [setupTime, syncWait_all_fail epoch h 10 m]
  · intro epoch2 m2 last2 h
    rw [syncTimeIfNeeded, if_neg (not_le.mpr h)]

/-- Witness for C7: at `millis() = 3600000` with marker 0 and a
never-validating clock, an attempt fires, spends all 10 retries and resets
the marker to 3610000. -/
theorem claimC7_resync_marker_reset_witness :
    NTP_SYNC_INTERVAL ≤ u32sub 3600000 0 ∧
    (syncTimeIfNeeded (fun _ => 0) 3600000 0).2 = setupTime (fun _ => 0) 3600000 % U32 ∧
    3600000 ≤ setupTime (fun _ => 0) 3600000 ∧
    setupTime (fun _ => 0) 3600000 ≤ 3600000 + 10000 ∧
    setupTime (fun _ => 0) 3600000 = 3600000 + 10000 :=
  have h := claimC7_resync_marker_reset (fun _ => 0) 3600000 0
  ⟨by decide, (h.2.1 (by decide)).1, (h.2.1 (by decide)).2.1, (h.2.1 (by decide)).2.2,
   h.2.2.2.2.1 (fun _ => by norm_num)⟩

end AquaTimer
